import Mathlib

/-!
Verification of the Turbomark backup/retention/rollback lifecycle.

This file gives a shallow embedding, in Lean 4, of the backup system
(automated backup script, `src/unnamed/part_000`) and of the rollback tool
(`src/backup/rollback-system.js`), and proves or refutes the frozen claims
about them.

Modelling conventions:
  - JavaScript strings are `List Char`.
  - The local backup directory is a list of file records
    (name, modification time in epoch milliseconds, size in bytes).
  - Every external effect (a spawned process, an S3 transfer, a mail send)
    is represented by a boolean outcome supplied in an environment record;
    the commands a function attempts are collected into an explicit trace,
    in program order, so "command X was issued" is trace membership.
  - A thrown JavaScript exception is modelled by control jumping to the
    enclosing catch handler, exactly as in the source; an `Except.error`
    models a rejected promise that no handler catches.
-/

/-- Characters of a string literal; JavaScript strings are `List Char` here. -/
def strL (s : String) : List Char := s.data

/-- The two protected data sources (`postgres` / `redis` in the source). -/
inductive SourceKind
  | postgres
  | redis
deriving DecidableEq, Repr

/-- The string the source uses for each source kind in file names. -/
def SourceKind.str : SourceKind → List Char
  | .postgres => strL "postgres"
  | .redis => strL "redis"

/-- Backup cadences (`backupType` strings in the source). -/
inductive Cadence
  | hourly
  | daily
  | weekly
  | monthly
  | manual
  | startup
  | quick
deriving DecidableEq, Repr, Fintype

/-- The string the source uses for each cadence. -/
def Cadence.str : Cadence → List Char
  | .hourly => strL "hourly"
  | .daily => strL "daily"
  | .weekly => strL "weekly"
  | .monthly => strL "monthly"
  | .manual => strL "manual"
  | .startup => strL "startup"
  | .quick => strL "quick"

/-- `BACKUP_CONFIG.retention`: the per-cadence keep count.  The JavaScript
object has keys only for the four scheduled cadences; indexing with any
other cadence yields `undefined`, modelled as `none`. -/
def retention : Cadence → Option Nat
  | .hourly => some 24
  | .daily => some 7
  | .weekly => some 4
  | .monthly => some 12
  | _ => none

/-- JavaScript `haystack.includes(needle)`: substring containment. -/
def containsSub (sub : List Char) : List Char → Bool
  | [] => sub.isEmpty
  | c :: rest => sub.isPrefixOf (c :: rest) || containsSub sub rest

/-- One file of the local backup directory: its name, its modification
time (epoch milliseconds) and its size in bytes, as `fs.statSync` reports. -/
structure BFile where
  name : List Char
  mtime : Nat
  size : Nat
deriving DecidableEq, Repr

/-- The candidate set of `cleanOldBackups(backupType)`: every directory
entry whose name contains the cadence string as a substring
(`file.includes(backupType)` in the source — no extension check). -/
def candidateFiles (bt : Cadence) (dir : List BFile) : List BFile :=
  dir.filter (fun f => containsSub bt.str f.name)

/-- The source's `.sort((a, b) => b.mtime - a.mtime)`: newest first. -/
def sortNewest (fs : List BFile) : List BFile :=
  fs.mergeSort (fun a b => decide (b.mtime ≤ a.mtime))

/-- `cleanOldBackups(backupType)` from `src/unnamed/part_000`: list the
directory entries containing the cadence substring, order them newest
first, and when there are more than `retention[backupType]` of them delete
every entry past that index (deletion is by path, hence by name).  For a
cadence with no retention entry the JavaScript comparison
`files.length > undefined` is false and nothing is deleted. -/
def cleanOldBackups (bt : Cadence) (dir : List BFile) : List BFile :=
  match retention bt with
  | none => dir
  | some k =>
    let files := sortNewest (candidateFiles bt dir)
    if k < files.length then
      let filesToDelete := files.drop k
      dir.filter (fun g => filesToDelete.all (fun d => !(d.name == g.name)))
    else dir

/-- How many files of `fs` are strictly newer than `f`. -/
def newerCount (f : BFile) (fs : List BFile) : Nat :=
  (fs.filter (fun g => decide (f.mtime < g.mtime))).length

example : containsSub (strL "weekly") (strL "postgres-weekly-x.sql.gz") = true := by decide
example : containsSub (strL "daily") (strL "postgres-weekly-x.sql.gz") = false := by decide
example :
    cleanOldBackups Cadence.manual [⟨strL "postgres-manual-a.sql.gz", 3, 1⟩]
      = [⟨strL "postgres-manual-a.sql.gz", 3, 1⟩] := by decide

theorem sortNewest_perm (fs : List BFile) : (sortNewest fs).Perm fs :=
  List.mergeSort_perm fs _

theorem sortNewest_sorted (fs : List BFile) :
    (sortNewest fs).Pairwise (fun a b => b.mtime ≤ a.mtime) := by
  have h : (sortNewest fs).Pairwise
      (fun a b : BFile => decide (b.mtime ≤ a.mtime) = true) :=
    List.sorted_mergeSort
      (by intro a b c hab hbc; simp only [decide_eq_true_eq] at *; omega)
      (by intro a b; simp only [Bool.or_eq_true, decide_eq_true_eq]; omega)
      fs
  exact h.imp (by intro a b hab; simpa using hab)

theorem length_filter_lt_of_mem_not {α : Type} {p : α → Bool} {l : List α} {a : α}
    (ha : a ∈ l) (hpa : p a = false) : (l.filter p).length < l.length := by
  induction l with
  | nil => cases ha
  | cons x rest ih =>
    rcases List.mem_cons.mp ha with hax | har
    · subst hax
      rw [List.filter_cons_of_neg (by simp [hpa])]
      have := List.length_filter_le p rest
      simp only [List.length_cons]
      omega
    · by_cases hx : p x = true
      · rw [List.filter_cons_of_pos hx]
        have := ih har
        simp only [List.length_cons]
        omega
      · rw [List.filter_cons_of_neg (by simpa using hx)]
        have := ih har
        simp only [List.length_cons]
        omega

theorem mem_take_iff_newerCount {L : List BFile} {k : Nat} {f : BFile}
    (hs : L.Pairwise (fun a b => b.mtime ≤ a.mtime))
    (hn : (L.map BFile.mtime).Nodup)
    (hf : f ∈ L) :
    f ∈ L.take k ↔ newerCount f L < k := by
  induction L generalizing k with
  | nil => cases hf
  | cons x rest ih =>
    rcases List.pairwise_cons.mp hs with ⟨hx, hs'⟩
    rcases List.nodup_cons.mp hn with ⟨hmx, hn'⟩
    cases k with
    | zero => simp
    | succ k =>
      rcases List.mem_cons.mp hf with hfx | hfr
      · subst hfx
        have h0 : newerCount f (f :: rest) = 0 := by
          have hrest : rest.filter (fun g => decide (f.mtime < g.mtime)) = [] := by
            rw [List.filter_eq_nil_iff]
            intro g hg
            have := hx g hg
            simp only [decide_eq_true_eq]
            omega
          simp [newerCount, List.filter_cons, hrest]
        simp [h0, List.take_succ_cons]
      · have hfm : f.mtime ∈ rest.map BFile.mtime := List.mem_map_of_mem BFile.mtime hfr
        have hne : f.mtime ≠ x.mtime := by
          intro h
          exact hmx (h ▸ hfm)
        have hlt : f.mtime < x.mtime := lt_of_le_of_ne (hx f hfr) hne
        have hcnt : newerCount f (x :: rest) = newerCount f rest + 1 := by
          unfold newerCount
          rw [List.filter_cons_of_pos (by simp only [decide_eq_true_eq]; exact hlt)]
          simp
        have hfx' : f ≠ x := by
          intro h
          exact hne (h ▸ rfl)
        rw [List.take_succ_cons, List.mem_cons, hcnt]
        constructor
        · intro h
          rcases h with h | h
          · exact absurd h hfx'
          · have := (ih hs' hn' hfr).mp h
            omega
        · intro h
          right
          exact (ih hs' hn' hfr).mpr (by omega)


theorem candidateFiles_filter_comm (bt : Cadence) (dir : List BFile) (p : BFile → Bool) :
    candidateFiles bt (dir.filter p) = (candidateFiles bt dir).filter p := by
  unfold candidateFiles
  rw [List.filter_filter, List.filter_filter]
  exact List.filter_congr (by intro a _; rw [Bool.and_comm])

theorem filter_keep_eq_take {L : List BFile} {k : Nat}
    (hnames : (L.map BFile.name).Nodup) :
    L.filter (fun g => (L.drop k).all (fun d => !(d.name == g.name))) = L.take k := by
  have hnd : L.Nodup := List.Nodup.of_map BFile.name hnames
  have hsplit := List.take_append_drop k L
  have hdisj : (L.take k).Disjoint (L.drop k) := by
    have h : (L.take k ++ L.drop k).Nodup := by rw [hsplit]; exact hnd
    exact (List.nodup_append.mp h).2.2
  calc L.filter (fun g => (L.drop k).all (fun d => !(d.name == g.name)))
      = (L.take k ++ L.drop k).filter
          (fun g => (L.drop k).all (fun d => !(d.name == g.name))) := by rw [hsplit]
    _ = (L.take k).filter (fun g => (L.drop k).all (fun d => !(d.name == g.name)))
          ++ (L.drop k).filter (fun g => (L.drop k).all (fun d => !(d.name == g.name))) :=
        List.filter_append _ _
    _ = L.take k ++ [] := by
        congr 1
        · rw [List.filter_eq_self]
          intro g hg
          rw [List.all_eq_true]
          intro d hd
          rw [Bool.not_eq_true', beq_eq_false_iff_ne]
          intro heq
          have hdL : d ∈ L := List.mem_of_mem_drop hd
          have hgL : g ∈ L := List.mem_of_mem_take hg
          have : d = g := List.inj_on_of_nodup_map hnames hdL hgL heq
          subst this
          exact hdisj hg hd
        · rw [List.filter_eq_nil_iff]
          intro d hd hall
          rw [List.all_eq_true] at hall
          have := hall d hd
          simp at this
    _ = L.take k := by simp

theorem cleanOldBackups_mem_iff {bt : Cadence} {k : Nat} {dir : List BFile}
    (hret : retention bt = some k)
    (hnames : (dir.map BFile.name).Nodup)
    (hmt : (dir.map BFile.mtime).Nodup)
    {f : BFile} (hf : f ∈ dir) :
    f ∈ cleanOldBackups bt dir ↔
      (containsSub bt.str f.name = false
        ∨ newerCount f (candidateFiles bt dir) < k) := by
  have hCsub : (candidateFiles bt dir).Sublist dir := List.filter_sublist dir
  have hLC : (sortNewest (candidateFiles bt dir)).Perm (candidateFiles bt dir) :=
    sortNewest_perm _
  have hCnames : ((candidateFiles bt dir).map BFile.name).Nodup :=
    List.Nodup.sublist (List.Sublist.map BFile.name hCsub) hnames
  have hCmt : ((candidateFiles bt dir).map BFile.mtime).Nodup :=
    List.Nodup.sublist (List.Sublist.map BFile.mtime hCsub) hmt
  have hLnames : ((sortNewest (candidateFiles bt dir)).map BFile.name).Nodup := by
    rw [List.Perm.nodup_iff (List.Perm.map BFile.name hLC)]
    exact hCnames
  have hLmt : ((sortNewest (candidateFiles bt dir)).map BFile.mtime).Nodup := by
    rw [List.Perm.nodup_iff (List.Perm.map BFile.mtime hLC)]
    exact hCmt
  have hLnodup : (sortNewest (candidateFiles bt dir)).Nodup :=
    List.Nodup.of_map BFile.name hLnames
  have hcount : newerCount f (sortNewest (candidateFiles bt dir))
      = newerCount f (candidateFiles bt dir) :=
    (List.Perm.filter _ hLC).length_eq
  simp only [cleanOldBackups, hret]
  by_cases hlen : k < (sortNewest (candidateFiles bt dir)).length
  · rw [if_pos hlen]
    rw [List.mem_filter]
    simp only [hf, true_and]
    by_cases hc : containsSub bt.str f.name = true
    · have hfC : f ∈ candidateFiles bt dir := List.mem_filter.mpr ⟨hf, hc⟩
      have hfL : f ∈ sortNewest (candidateFiles bt dir) := hLC.mem_iff.mpr hfC
      have hstep1 :
          ((sortNewest (candidateFiles bt dir)).drop k).all
              (fun d => !(d.name == f.name)) = true
            ↔ f ∉ (sortNewest (candidateFiles bt dir)).drop k := by
        rw [List.all_eq_true]
        constructor
        · intro hall hmem
          have := hall f hmem
          simp at this
        · intro hnot d hd
          rw [Bool.not_eq_true', beq_eq_false_iff_ne]
          intro heq
          have hdL : d ∈ sortNewest (candidateFiles bt dir) := List.mem_of_mem_drop hd
          have : d = f := List.inj_on_of_nodup_map hLnames hdL hfL heq
          subst this
          exact hnot hd
      have hstep2 : f ∉ (sortNewest (candidateFiles bt dir)).drop k
          ↔ f ∈ (sortNewest (candidateFiles bt dir)).take k := by
        have hsplit := List.take_append_drop k (sortNewest (candidateFiles bt dir))
        have hnd : ((sortNewest (candidateFiles bt dir)).take k
            ++ (sortNewest (candidateFiles bt dir)).drop k).Nodup := by
          rw [hsplit]; exact hLnodup
        have hdisj := (List.nodup_append.mp hnd).2.2
        have hfsplit : f ∈ (sortNewest (candidateFiles bt dir)).take k
            ∨ f ∈ (sortNewest (candidateFiles bt dir)).drop k := by
          rw [← List.mem_append, hsplit]
          exact hfL
        constructor
        · intro hnot
          rcases hfsplit with h | h
          · exact h
          · exact absurd h hnot
        · intro htake hdrop
          exact hdisj htake hdrop
      have hstep3 : f ∈ (sortNewest (candidateFiles bt dir)).take k
          ↔ newerCount f (candidateFiles bt dir) < k := by
        rw [mem_take_iff_newerCount (sortNewest_sorted _) hLmt hfL, hcount]
      rw [hstep1, hstep2, hstep3]
      simp [hc]
    · have hcf : containsSub bt.str f.name = false := Bool.eq_false_iff.mpr hc
      have hall : ((sortNewest (candidateFiles bt dir)).drop k).all
          (fun d => !(d.name == f.name)) = true := by
        rw [List.all_eq_true]
        intro d hd
        rw [Bool.not_eq_true', beq_eq_false_iff_ne]
        intro heq
        have hdL : d ∈ sortNewest (candidateFiles bt dir) := List.mem_of_mem_drop hd
        have hdC : d ∈ candidateFiles bt dir := hLC.mem_iff.mp hdL
        have hdc : containsSub bt.str d.name = true := (List.mem_filter.mp hdC).2
        rw [heq, hcf] at hdc
        cases hdc
      simp [hall, hcf]
  · rw [if_neg hlen]
    simp only [hf, true_iff]
    by_cases hc : containsSub bt.str f.name = true
    · right
      have hfC : f ∈ candidateFiles bt dir := List.mem_filter.mpr ⟨hf, hc⟩
      have h1 : newerCount f (candidateFiles bt dir) < (candidateFiles bt dir).length :=
        length_filter_lt_of_mem_not hfC (by simp)
      have h2 := hLC.length_eq
      omega
    · left
      exact Bool.eq_false_iff.mpr hc

theorem cleanOldBackups_count {bt : Cadence} {k : Nat} {dir : List BFile}
    (hret : retention bt = some k)
    (hnames : (dir.map BFile.name).Nodup) :
    (candidateFiles bt (cleanOldBackups bt dir)).length
      = min k (candidateFiles bt dir).length := by
  have hCsub : (candidateFiles bt dir).Sublist dir := List.filter_sublist dir
  have hLC : (sortNewest (candidateFiles bt dir)).Perm (candidateFiles bt dir) :=
    sortNewest_perm _
  have hCnames : ((candidateFiles bt dir).map BFile.name).Nodup :=
    List.Nodup.sublist (List.Sublist.map BFile.name hCsub) hnames
  have hLnames : ((sortNewest (candidateFiles bt dir)).map BFile.name).Nodup := by
    rw [List.Perm.nodup_iff (List.Perm.map BFile.name hLC)]
    exact hCnames
  simp only [cleanOldBackups, hret]
  by_cases hlen : k < (sortNewest (candidateFiles bt dir)).length
  · rw [if_pos hlen]
    rw [candidateFiles_filter_comm]
    have hperm : ((candidateFiles bt dir).filter
        (fun g => ((sortNewest (candidateFiles bt dir)).drop k).all
          (fun d => !(d.name == g.name)))).length
        = ((sortNewest (candidateFiles bt dir)).filter
        (fun g => ((sortNewest (candidateFiles bt dir)).drop k).all
          (fun d => !(d.name == g.name)))).length :=
      (List.Perm.filter _ hLC).length_eq.symm
    rw [hperm, filter_keep_eq_take hLnames, List.length_take]
    have h2 := hLC.length_eq
    omega
  · rw [if_neg hlen]
    have h2 := hLC.length_eq
    have : (candidateFiles bt dir).length ≤ k := by omega
    rw [Nat.min_eq_right this]

/-- Classifying a directory of well-formed artifacts: `fcad` assigns each
file its cadence, and a cadence string occurs in a file name exactly when
it is that file's cadence (true of the naming scheme
`sourceKind-cadence-timestamp.ext.gz`, since no cadence name is a
substring of another or of the other name parts). -/
def ArtifactDir (dir : List BFile) (fcad : BFile → Cadence) : Prop :=
  ∀ f ∈ dir, ∀ c : Cadence, (containsSub c.str f.name = true ↔ fcad f = c)

/-- Claim C1: for every cadence `bt` with keep count `k = retention[bt]`
and every prior state of the local backup directory consisting of
well-formed artifacts (classified by `fcad`, with distinct names and
distinct modification times), after `cleanOldBackups bt`:
(1) the number of local artifacts of cadence `bt` is `min k priorCount`;
(2) an artifact of cadence `bt` is retained exactly when fewer than `k`
artifacts of that cadence are newer — i.e. the retained subset is the `k`
newest; and (3) artifacts of every other cadence are untouched. -/
theorem claim1_retention_prune (bt : Cadence) (k : Nat) (dir : List BFile)
    (fcad : BFile → Cadence)
    (hret : retention bt = some k)
    (hnames : (dir.map BFile.name).Nodup)
    (hmt : (dir.map BFile.mtime).Nodup)
    (hart : ArtifactDir dir fcad) :
    ((cleanOldBackups bt dir).filter (fun f => fcad f == bt)).length
        = min k ((dir.filter (fun f => fcad f == bt)).length)
    ∧ (∀ f ∈ dir, fcad f = bt →
        (f ∈ cleanOldBackups bt dir ↔
          newerCount f (dir.filter (fun f => fcad f == bt)) < k))
    ∧ (∀ f ∈ dir, fcad f ≠ bt → f ∈ cleanOldBackups bt dir) := by
  have hsubl : (cleanOldBackups bt dir).Sublist dir := by
    simp only [cleanOldBackups, hret]
    split
    · exact List.filter_sublist dir
    · exact List.Sublist.refl dir
  have hbridge : ∀ a ∈ dir, (fcad a == bt) = containsSub bt.str a.name := by
    intro a ha
    have h := hart a ha bt
    by_cases hfc : fcad a = bt
    · simp [hfc, h.mpr hfc]
    · have hcf : containsSub bt.str a.name = false := by
        rw [Bool.eq_false_iff]
        intro hc
        exact hfc (h.mp hc)
      simp [hcf, hfc]
  have hfilt : dir.filter (fun f => fcad f == bt) = candidateFiles bt dir :=
    List.filter_congr hbridge
  have hfilt2 : (cleanOldBackups bt dir).filter (fun f => fcad f == bt)
      = candidateFiles bt (cleanOldBackups bt dir) :=
    List.filter_congr (fun a ha => hbridge a (hsubl.subset ha))
  refine ⟨?_, ?_, ?_⟩
  · rw [hfilt, hfilt2]
    exact cleanOldBackups_count hret hnames
  · intro f hf hfc
    have hc : containsSub bt.str f.name = true := (hart f hf bt).mpr hfc
    rw [hfilt]
    rw [cleanOldBackups_mem_iff hret hnames hmt hf, hc]
    simp
  · intro f hf hfc
    have hcf : containsSub bt.str f.name = false := by
      rw [Bool.eq_false_iff]
      intro hc
      exact hfc ((hart f hf bt).mp hc)
    exact (cleanOldBackups_mem_iff hret hnames hmt hf).mpr (Or.inl hcf)

/-- A concrete artifact directory used to instantiate claim C1: five
weekly artifacts and one daily artifact. -/
def wDir : List BFile :=
  [⟨strL "postgres-weekly-a.sql.gz", 10, 5⟩,
   ⟨strL "redis-weekly-b.rdb.gz", 20, 5⟩,
   ⟨strL "postgres-weekly-c.sql.gz", 30, 5⟩,
   ⟨strL "redis-weekly-d.rdb.gz", 40, 5⟩,
   ⟨strL "postgres-weekly-e.sql.gz", 50, 5⟩,
   ⟨strL "redis-daily-f.rdb.gz", 60, 5⟩]

/-- Cadence classifier for `wDir`. -/
def wCad (f : BFile) : Cadence :=
  if containsSub (strL "weekly") f.name then Cadence.weekly else Cadence.daily

/-- Witness for claim C1 at a concrete directory: pruning the weekly
cadence (keep count 4) of a six-file directory leaves min 4 5 = 4 weekly
artifacts. -/
theorem claim1_witness :
    ((cleanOldBackups Cadence.weekly wDir).filter
        (fun f => wCad f == Cadence.weekly)).length
      = min 4 ((wDir.filter (fun f => wCad f == Cadence.weekly)).length) :=
  (claim1_retention_prune Cadence.weekly 4 wDir wCad rfl (by decide) (by decide)
    (by unfold ArtifactDir; decide)).1

/-- Claim C9: the retention pruner for cadence `bt` selects its candidate
set purely by substring containment of the cadence name, with no
extension check, so any file whose name contains the cadence string — in
particular an uncompressed leftover `.sql`/`.rdb` file — is counted
toward the keep count and is retained exactly when fewer than `k`
candidates are newer; the retained candidate count is `min k priorCount`
over that extension-blind candidate set. -/
theorem claim9_substring_retention (bt : Cadence) (k : Nat) (dir : List BFile)
    (hret : retention bt = some k)
    (hnames : (dir.map BFile.name).Nodup)
    (hmt : (dir.map BFile.mtime).Nodup) :
    (candidateFiles bt (cleanOldBackups bt dir)).length
        = min k (candidateFiles bt dir).length
    ∧ ∀ f ∈ dir, containsSub bt.str f.name = true →
        (f ∈ cleanOldBackups bt dir ↔
          newerCount f (candidateFiles bt dir) < k) := by
  refine ⟨cleanOldBackups_count hret hnames, ?_⟩
  intro f hf hc
  rw [cleanOldBackups_mem_iff hret hnames hmt hf, hc]
  simp

/-- Directory for the claim C9 witness: four compressed weekly artifacts
and one uncompressed weekly `.sql` leftover (the newest file). -/
def wDir9 : List BFile :=
  [⟨strL "postgres-weekly-a.sql.gz", 10, 5⟩,
   ⟨strL "redis-weekly-b.rdb.gz", 20, 5⟩,
   ⟨strL "postgres-weekly-c.sql.gz", 30, 5⟩,
   ⟨strL "redis-weekly-d.rdb.gz", 40, 5⟩,
   ⟨strL "postgres-weekly-e.sql", 50, 0⟩]

/-- Witness for claim C9: the uncompressed `.sql` leftover is a candidate
and, being among the 4 newest, survives the weekly prune (keep count 4),
occupying a retention slot alongside the `.gz` artifacts. -/
theorem claim9_witness :
    (⟨strL "postgres-weekly-e.sql", 50, 0⟩ : BFile)
      ∈ cleanOldBackups Cadence.weekly wDir9 :=
  ((claim9_substring_retention Cadence.weekly 4 wDir9 rfl (by decide)
      (by decide)).2
    ⟨strL "postgres-weekly-e.sql", 50, 0⟩ (by decide) (by decide)).mpr (by decide)

/-- External commands the rollback tool can attempt, in the order the
source attempts them; a command appears in a trace exactly when the
corresponding `execSync` / S3 call / `fs.unlinkSync` was reached. -/
inductive RbCmd
  | dlPg (key : List Char)
  | dlRedis (key : List Char)
  | pgGunzip (p : List Char)
  | pgStop
  | pgPsql
  | pgStart
  | pgUnlink
  | rdStop
  | rdGunzip (p : List Char)
  | rdDockerCp
  | rdStart
  | rdUnlink
deriving DecidableEq, Repr

/-- The value of a restore result's `type` field
(`postgresql` / `redis`, or `system` from `executeRollback`'s catch). -/
inductive RKind
  | postgresql
  | redis
  | system
deriving DecidableEq, Repr

/-- A per-source restore result: `{success, type, error?}`. -/
structure RResult where
  success : Bool
  rtype : RKind
  error : Option (List Char)
deriving DecidableEq, Repr

/-- Outcomes of the five external steps of one restore function.  For
`restorePostgreSQL`, `applyOk` is the `psql` apply; for `restoreRedis` it
is the `docker cp` of the snapshot file. -/
structure StepsEnv where
  decompressOk : Bool
  stopOk : Bool
  applyOk : Bool
  startOk : Bool
  unlinkOk : Bool
deriving DecidableEq, Repr

/-- `restorePostgreSQL(backupFile)`: decompress, stop dependent services,
apply with psql, restart services, delete the temp file — strictly in
that order inside one try block, so the first failing step throws to the
catch and every later step is skipped.  Returns the trace of attempted
commands and the result object. -/
def restorePostgreSQL (env : StepsEnv) (backupFile : List Char) :
    List RbCmd × RResult :=
  if !env.decompressOk then
    ([RbCmd.pgGunzip backupFile],
      ⟨false, RKind.postgresql, some (strL "gunzip failed")⟩)
  else if !env.stopOk then
    ([RbCmd.pgGunzip backupFile, RbCmd.pgStop],
      ⟨false, RKind.postgresql, some (strL "stop failed")⟩)
  else if !env.applyOk then
    ([RbCmd.pgGunzip backupFile, RbCmd.pgStop, RbCmd.pgPsql],
      ⟨false, RKind.postgresql, some (strL "psql failed")⟩)
  else if !env.startOk then
    ([RbCmd.pgGunzip backupFile, RbCmd.pgStop, RbCmd.pgPsql, RbCmd.pgStart],
      ⟨false, RKind.postgresql, some (strL "start failed")⟩)
  else if !env.unlinkOk then
    ([RbCmd.pgGunzip backupFile, RbCmd.pgStop, RbCmd.pgPsql, RbCmd.pgStart,
        RbCmd.pgUnlink],
      ⟨false, RKind.postgresql, some (strL "unlink failed")⟩)
  else
    ([RbCmd.pgGunzip backupFile, RbCmd.pgStop, RbCmd.pgPsql, RbCmd.pgStart,
        RbCmd.pgUnlink],
      ⟨true, RKind.postgresql, none⟩)

/-- `restoreRedis(backupFile)`: stop redis FIRST, then decompress, then
`docker cp` the snapshot in, then restart redis, then delete the temp
file — the first failing step throws to the catch and skips the rest. -/
def restoreRedis (env : StepsEnv) (backupFile : List Char) :
    List RbCmd × RResult :=
  if !env.stopOk then
    ([RbCmd.rdStop], ⟨false, RKind.redis, some (strL "stop failed")⟩)
  else if !env.decompressOk then
    ([RbCmd.rdStop, RbCmd.rdGunzip backupFile],
      ⟨false, RKind.redis, some (strL "gunzip failed")⟩)
  else if !env.applyOk then
    ([RbCmd.rdStop, RbCmd.rdGunzip backupFile, RbCmd.rdDockerCp],
      ⟨false, RKind.redis, some (strL "docker cp failed")⟩)
  else if !env.startOk then
    ([RbCmd.rdStop, RbCmd.rdGunzip backupFile, RbCmd.rdDockerCp, RbCmd.rdStart],
      ⟨false, RKind.redis, some (strL "start failed")⟩)
  else if !env.unlinkOk then
    ([RbCmd.rdStop, RbCmd.rdGunzip backupFile, RbCmd.rdDockerCp, RbCmd.rdStart,
        RbCmd.rdUnlink],
      ⟨false, RKind.redis, some (strL "unlink failed")⟩)
  else
    ([RbCmd.rdStop, RbCmd.rdGunzip backupFile, RbCmd.rdDockerCp, RbCmd.rdStart,
        RbCmd.rdUnlink],
      ⟨true, RKind.redis, none⟩)

/-- Recognizer for the postgres consumer-restart command. -/
def isPgStart : RbCmd → Bool
  | RbCmd.pgStart => true
  | _ => false

/-- Recognizer for the redis consumer-restart command. -/
def isRdStart : RbCmd → Bool
  | RbCmd.rdStart => true
  | _ => false

/-- Claim C2, counterexample: it is NOT the case that every restore
invocation issues the consumer-restart (start) command exactly once.
When the psql apply step fails, `restorePostgreSQL` throws to its catch
before ever reaching the `docker-compose up` line, so no start command is
issued at all. -/
theorem claim2_counterexample :
    ¬ (∀ (env : StepsEnv) (p : List Char),
        ((restorePostgreSQL env p).1.countP isPgStart = 1
          ∧ (restoreRedis env p).1.countP isRdStart = 1)) := by
  intro h
  have := (h ⟨true, true, false, true, true⟩ []).1
  simp [restorePostgreSQL, List.countP, List.countP.go, isPgStart] at this

/-- Claim C2 as amended: the consumer-restart command is issued exactly
once when and only when every step before it succeeds (decompress, stop
and apply for the relational restore; stop, decompress and copy for the
cache restore); when an earlier step — in particular the restore-apply
step — fails, the restart command is never issued. -/
theorem claim2_amended (env : StepsEnv) (p : List Char) :
    (restorePostgreSQL env p).1.countP isPgStart
        = (if env.decompressOk && env.stopOk && env.applyOk then 1 else 0)
    ∧ (restoreRedis env p).1.countP isRdStart
        = (if env.stopOk && env.decompressOk && env.applyOk then 1 else 0) := by
  rcases env with ⟨d, st, a, s, u⟩
  cases d <;> cases st <;> cases a <;> cases s <;> cases u <;>
    simp [restorePostgreSQL, restoreRedis, List.countP, List.countP.go,
      isPgStart, isRdStart]

/-- Storage location of a backup entry. -/
inductive Loc
  | localDisk
  | s3
deriving DecidableEq, Repr

/-- One entry of `listAvailableBackups`' output: `{filename, key?, type,
size, created, location}`.  Local entries have no S3 key; `[]` models the
absent (`undefined`) key. -/
structure BEntry where
  filename : List Char
  key : List Char
  btype : RKind
  size : Nat
  created : Nat
  location : Loc
deriving DecidableEq, Repr

/-- `path.join(ROLLBACK_CONFIG.backupDir, filename)` with
`backupDir = ./backups`. -/
def rbLocalPath (filename : List Char) : List Char :=
  strL "backups/" ++ filename

/-- Options object of `executeRollback` (defaults: both backups null,
type manual, no download). -/
structure RbOptions where
  postgresBackup : Option BEntry
  redisBackup : Option BEntry
  rollbackType : List Char
  shouldDownload : Bool
deriving Repr

/-- Environment for one `executeRollback` invocation: outcome of each S3
download, of the five steps of each restore function, and of the mail
transport. -/
structure RbEnv where
  dlPgOk : Bool
  dlRedisOk : Bool
  pgEnv : StepsEnv
  rdEnv : StepsEnv
  mailOk : Bool
deriving Repr

/-- The notification `sendRollbackNotification` formats: the result list,
the rollback type, and whether the subject line says `completed`
(`results.every(r => r.success)` — vacuously true on an empty list). -/
structure RbNote where
  results : List RResult
  rbType : List Char
  completed : Bool
deriving DecidableEq, Repr

/-- `sendRollbackNotification(results, rollbackType)`: the notification
value it formats and mails. -/
def sendRollbackNotification (results : List RResult) (rbType : List Char) :
    RbNote :=
  ⟨results, rbType, results.all (fun r => r.success)⟩

/-- What `executeRollback` returns normally: `{success, results}`. -/
structure RbReturn where
  success : Bool
  results : List RResult
deriving DecidableEq, Repr

/-- Observable outcome of one `executeRollback` / `quickRollback`
invocation: the trace of attempted commands, the notifications actually
delivered, and either the returned object or the message of an uncaught
(promise-rejecting) exception. -/
structure RbOut where
  cmds : List RbCmd
  notes : List RbNote
  ret : Except (List Char) RbReturn
deriving Repr

/-- `executeRollback(options)` from `src/backup/rollback-system.js`.
If requested, each S3-located backup is downloaded first; a failed
download is swallowed (`downloadFromS3` returns false) and merely leaves
`localPath` unset, so the later restore runs on the bare filename.  Each
selected source is then restored (the restore functions catch their own
errors and return result objects).  Finally one notification over the
collected results is sent and `{success: true, results}` is returned; the
only step that can throw to `executeRollback`'s catch in this model is the
mail send, and the catch's own second mail send then throws again,
rejecting the promise. -/
def executeRollback (opts : RbOptions) (env : RbEnv) : RbOut :=
  let pgDl : List RbCmd :=
    match opts.postgresBackup with
    | some b =>
      if opts.shouldDownload && (b.location == Loc.s3) then [RbCmd.dlPg b.key]
      else []
    | none => []
  let rdDl : List RbCmd :=
    match opts.redisBackup with
    | some b =>
      if opts.shouldDownload && (b.location == Loc.s3) then [RbCmd.dlRedis b.key]
      else []
    | none => []
  let pgRun : List RbCmd × List RResult :=
    match opts.postgresBackup with
    | some b =>
      let p :=
        if opts.shouldDownload && (b.location == Loc.s3) && env.dlPgOk then
          rbLocalPath b.filename
        else b.filename
      let r := restorePostgreSQL env.pgEnv p
      (r.1, [r.2])
    | none => ([], [])
  let rdRun : List RbCmd × List RResult :=
    match opts.redisBackup with
    | some b =>
      let p :=
        if opts.shouldDownload && (b.location == Loc.s3) && env.dlRedisOk then
          rbLocalPath b.filename
        else b.filename
      let r := restoreRedis env.rdEnv p
      (r.1, [r.2])
    | none => ([], [])
  let cmds := pgDl ++ rdDl ++ pgRun.1 ++ rdRun.1
  let results := pgRun.2 ++ rdRun.2
  if env.mailOk then
    ⟨cmds, [sendRollbackNotification results opts.rollbackType],
      Except.ok ⟨true, results⟩⟩
  else
    ⟨cmds, [], Except.error (strL "mail send failed")⟩

/-- The consumer-stop command is the very first thing `restoreRedis`
attempts, so it appears in the trace whatever the step outcomes are. -/
theorem rdStop_mem_restoreRedis (env : StepsEnv) (p : List Char) :
    RbCmd.rdStop ∈ (restoreRedis env p).1 := by
  rcases env with ⟨d, st, a, s, u⟩
  cases d <;> cases st <;> cases a <;> cases s <;> cases u <;> simp [restoreRedis]

/-- The S3-located cache backup used for the claim C3 counterexample. -/
def c3entry : BEntry :=
  ⟨strL "redis-hourly-x.rdb.gz",
   strL "turbomark/redis/hourly/redis-hourly-x.rdb.gz",
   RKind.redis, 5, 10, Loc.s3⟩

/-- Claim C3 environment: the S3 download fails; the later decompress of
the (absent) file fails too, but the redis stop succeeds. -/
def c3env : RbEnv :=
  ⟨true, false, ⟨true, true, true, true, true⟩,
   ⟨false, true, true, true, true⟩, true⟩

/-- Claim C3, counterexample: a restore invoked with a Remote-only cache
artifact whose S3 fetch fails does NOT fail during Preparing and does NOT
avoid consumer stop commands: the failed download is swallowed, the run
proceeds into `restoreRedis`, which stops redis first, and the invocation
returns `{success: true}` with a per-source failure result. -/
theorem claim3_counterexample :
    RbCmd.rdStop
        ∈ (executeRollback ⟨none, some c3entry, strL "manual", true⟩ c3env).cmds
    ∧ (executeRollback ⟨none, some c3entry, strL "manual", true⟩ c3env).ret
        = Except.ok ⟨true, [⟨false, RKind.redis, some (strL "gunzip failed")⟩]⟩ := by
  constructor
  · decide
  · rfl

/-- Claim C3 as amended: when a restore is invoked with a Remote-only
artifact and the S3 fetch fails, the failure is swallowed
(`downloadFromS3` returns false): the run proceeds to the restore step on
the artifact's bare filename and — provided the notification mail goes
out — completes with `success = true` and a per-source result, instead of
failing during Preparing.  For the relational source, whose restore
decompresses before stopping consumers, a decompress failure means no
stop command is issued; for the cache source the stop command is always
issued before decompression. -/
theorem claim3_amended (b : BEntry) (rt : List Char) (env : RbEnv)
    (hloc : b.location = Loc.s3) (hdlpg : env.dlPgOk = false)
    (hdlrd : env.dlRedisOk = false) (hmail : env.mailOk = true) :
    ((executeRollback ⟨some b, none, rt, true⟩ env).cmds
        = RbCmd.dlPg b.key :: (restorePostgreSQL env.pgEnv b.filename).1
      ∧ (executeRollback ⟨some b, none, rt, true⟩ env).ret
        = Except.ok ⟨true, [(restorePostgreSQL env.pgEnv b.filename).2]⟩
      ∧ (env.pgEnv.decompressOk = false →
          RbCmd.pgStop ∉ (executeRollback ⟨some b, none, rt, true⟩ env).cmds))
    ∧ ((executeRollback ⟨none, some b, rt, true⟩ env).cmds
        = RbCmd.dlRedis b.key :: (restoreRedis env.rdEnv b.filename).1
      ∧ (executeRollback ⟨none, some b, rt, true⟩ env).ret
        = Except.ok ⟨true, [(restoreRedis env.rdEnv b.filename).2]⟩
      ∧ RbCmd.rdStop ∈ (executeRollback ⟨none, some b, rt, true⟩ env).cmds) := by
  refine ⟨⟨?_, ?_, ?_⟩, ⟨?_, ?_, ?_⟩⟩
  · simp [executeRollback, hloc, hdlpg, hmail]
  · simp [executeRollback, hloc, hdlpg, hmail]
  · intro hdec
    simp [executeRollback, hloc, hdlpg, hmail, restorePostgreSQL, hdec]
  · simp [executeRollback, hloc, hdlrd, hmail]
  · simp [executeRollback, hloc, hdlrd, hmail]
  · have hc : (executeRollback ⟨none, some b, rt, true⟩ env).cmds
        = RbCmd.dlRedis b.key :: (restoreRedis env.rdEnv b.filename).1 := by
      simp [executeRollback, hloc, hdlrd, hmail]
    rw [hc]
    exact List.mem_cons_of_mem _ (rdStop_mem_restoreRedis env.rdEnv b.filename)

/-- Witness for the amended claim C3 at a concrete input: with both
downloads failing and the mail transport up, the quick-type rollback of
the concrete S3 cache entry issues the redis stop command. -/
theorem claim3_amended_witness :
    RbCmd.rdStop
      ∈ (executeRollback ⟨none, some c3entry, strL "quick",
          true⟩ ⟨false, false, ⟨false, true, true, true, true⟩,
          ⟨false, true, true, true, true⟩, true⟩).cmds :=
  (claim3_amended c3entry (strL "quick")
    ⟨false, false, ⟨false, true, true, true, true⟩,
      ⟨false, true, true, true, true⟩, true⟩
    rfl rfl rfl rfl).2.2.2

/-- Claim C10: `executeRollback` invoked with neither a relational nor a
cache backup selected (both arguments null) performs no restore steps,
emits one rollback notification over the empty result list whose subject
reports the rollback as completed (`[].every` is true), and returns
`success = true` with an empty results array — provided the notification
mail itself goes out. -/
theorem claim10_null_rollback (rt : List Char) (sd : Bool) (env : RbEnv)
    (hmail : env.mailOk = true) :
    executeRollback ⟨none, none, rt, sd⟩ env
      = ⟨[], [⟨[], rt, true⟩], Except.ok ⟨true, []⟩⟩ := by
  simp [executeRollback, hmail, sendRollbackNotification]

/-- Witness for claim C10: the concrete default invocation
(`rollbackType` manual, no download) with a working mail transport. -/
theorem claim10_witness :
    executeRollback ⟨none, none, strL "manual", false⟩
        ⟨true, true, ⟨true, true, true, true, true⟩,
          ⟨true, true, true, true, true⟩, true⟩
      = ⟨[], [⟨[], strL "manual", true⟩], Except.ok ⟨true, []⟩⟩ :=
  claim10_null_rollback (strL "manual") false
    ⟨true, true, ⟨true, true, true, true, true⟩,
      ⟨true, true, true, true, true⟩, true⟩ rfl

/-- One S3 object as `listObjectsV2` reports it. -/
structure S3Obj where
  key : List Char
  size : Nat
  lastModified : Nat
deriving DecidableEq, Repr

/-- `path.basename` of an S3 key: the part after the last slash. -/
def baseNameOf (key : List Char) : List Char :=
  (key.reverse.takeWhile (fun c => !(c == '/'))).reverse

/-- Newest-first ordering of backup entries
(`.sort((a, b) => b.created - a.created)`). -/
def sortEntriesNewest (es : List BEntry) : List BEntry :=
  es.mergeSort (fun a b => decide (b.created ≤ a.created))

/-- The local half of `listAvailableBackups`: directory entries whose
name contains `.sql.gz` or `.rdb.gz`, classified as postgresql when the
name contains `postgres` and as redis otherwise, newest first. -/
def listLocalBackups (dir : List BFile) : List BEntry :=
  sortEntriesNewest
    ((dir.filter (fun f =>
        containsSub (strL ".sql.gz") f.name
          || containsSub (strL ".rdb.gz") f.name)).map
      (fun f =>
        ⟨f.name, [],
          if containsSub (strL "postgres") f.name then RKind.postgresql
          else RKind.redis,
          f.size, f.mtime, Loc.localDisk⟩))

/-- The S3 half of `listAvailableBackups`: objects under the `turbomark/`
prefix whose key contains `.gz`, newest first; if the listing call fails
the catch leaves the S3 list empty. -/
def listS3Backups (objs : List S3Obj) (s3Ok : Bool) : List BEntry :=
  if s3Ok then
    sortEntriesNewest
      (((objs.filter (fun o => (strL "turbomark/").isPrefixOf o.key)).filter
          (fun o => containsSub (strL ".gz") o.key)).map
        (fun o =>
          ⟨baseNameOf o.key, o.key,
            if containsSub (strL "postgres") o.key then RKind.postgresql
            else RKind.redis,
            o.size, o.lastModified, Loc.s3⟩))
  else []

/-- `quickRollback()`: picks, per source kind, the newest entry across the
combined local and S3 listings, throws when either kind has none, and
otherwise runs `executeRollback` on the pair with download enabled. -/
def quickRollback (dir : List BFile) (objs : List S3Obj) (s3Ok : Bool)
    (env : RbEnv) : RbOut :=
  match (sortEntriesNewest
      ((listLocalBackups dir ++ listS3Backups objs s3Ok).filter
        (fun b => b.btype == RKind.postgresql))).head?,
    (sortEntriesNewest
      ((listLocalBackups dir ++ listS3Backups objs s3Ok).filter
        (fun b => b.btype == RKind.redis))).head? with
  | some p, some r => executeRollback ⟨some p, some r, strL "quick", true⟩ env
  | _, _ =>
    ⟨[], [], Except.error (strL "No recent backups found for quick rollback")⟩

/-- Claim C4: whenever at least one source kind has zero available
artifacts across the combined local and S3 listings, `quickRollback`
throws its no-backups error before doing anything: no command of any kind
is attempted (in particular no consumer stop or start), no notification
is sent, and neither source kind is restored. -/
theorem claim4_no_backups (dir : List BFile) (objs : List S3Obj) (s3Ok : Bool)
    (env : RbEnv)
    (h : (listLocalBackups dir ++ listS3Backups objs s3Ok).filter
          (fun b => b.btype == RKind.postgresql) = []
       ∨ (listLocalBackups dir ++ listS3Backups objs s3Ok).filter
          (fun b => b.btype == RKind.redis) = []) :
    quickRollback dir objs s3Ok env
      = ⟨[], [], Except.error
          (strL "No recent backups found for quick rollback")⟩ := by
  unfold quickRollback
  rcases h with h | h
  · rw [h]
    cases hrd : (sortEntriesNewest
        ((listLocalBackups dir ++ listS3Backups objs s3Ok).filter
          (fun b => b.btype == RKind.redis))).head? <;>
      simp [sortEntriesNewest]
  · rw [h]
    cases hpg : (sortEntriesNewest
        ((listLocalBackups dir ++ listS3Backups objs s3Ok).filter
          (fun b => b.btype == RKind.postgresql))).head? <;>
      simp [sortEntriesNewest]

/-- Witness for claim C4: with an empty local directory and an empty
bucket, `quickRollback` throws and attempts nothing. -/
theorem claim4_witness :
    quickRollback [] [] true
        ⟨true, true, ⟨true, true, true, true, true⟩,
          ⟨true, true, true, true, true⟩, true⟩
      = ⟨[], [], Except.error
          (strL "No recent backups found for quick rollback")⟩ :=
  claim4_no_backups [] [] true
    ⟨true, true, ⟨true, true, true, true, true⟩,
      ⟨true, true, true, true, true⟩, true⟩
    (Or.inl (by simp [listLocalBackups, listS3Backups, sortEntriesNewest]))

/-- The instant `new Date()` captured at the start of a producer run,
already broken into the fields `toISOString` prints
(`YYYY-MM-DDTHH:mm:ss.sssZ`). -/
structure IsoTime where
  y : Nat
  mo : Nat
  d : Nat
  h : Nat
  mi : Nat
  s : Nat
  ms : Nat
deriving DecidableEq, Repr

/-- Field bounds under which each `IsoTime` component fits its fixed
digit width in the ISO string (every real `toISOString` output satisfies
them). -/
def IsoTime.valid (t : IsoTime) : Prop :=
  t.y < 10000 ∧ t.mo < 100 ∧ t.d < 100 ∧ t.h < 100 ∧ t.mi < 100
    ∧ t.s < 100 ∧ t.ms < 1000

instance (t : IsoTime) : Decidable t.valid := by
  unfold IsoTime.valid
  infer_instance

/-- The decimal digit character for `n < 10`. -/
def dChar (n : Nat) : Char := Char.ofNat (48 + n)

/-- Numeric value of a decimal digit character. -/
def dVal (c : Char) : Nat := c.toNat - 48

/-- Two-digit zero-padded rendering. -/
def pad2 (n : Nat) : List Char := [dChar (n / 10), dChar (n % 10)]

/-- Three-digit zero-padded rendering. -/
def pad3 (n : Nat) : List Char :=
  [dChar (n / 100), dChar (n / 10 % 10), dChar (n % 10)]

/-- Four-digit zero-padded rendering. -/
def pad4 (n : Nat) : List Char :=
  [dChar (n / 1000), dChar (n / 100 % 10), dChar (n / 10 % 10), dChar (n % 10)]

/-- `toISOString()`: `YYYY-MM-DDTHH:mm:ss.sssZ`. -/
def isoChars (t : IsoTime) : List Char :=
  pad4 t.y ++ ['-'] ++ pad2 t.mo ++ ['-'] ++ pad2 t.d ++ ['T'] ++ pad2 t.h
    ++ [':'] ++ pad2 t.mi ++ [':'] ++ pad2 t.s ++ ['.'] ++ pad3 t.ms ++ ['Z']

/-- One character of `.replace(/[:.]/g, '-')`. -/
def colonDotToDash (ch : Char) : Char :=
  if ch == ':' || ch == '.' then '-' else ch

/-- `.replace(/[:.]/g, '-')` over a whole string: every single-character
match is replaced by a dash. -/
def jsReplaceColonDot (s : List Char) : List Char := s.map colonDotToDash

/-- The timestamp string the producer embeds in file names:
`new Date().toISOString().replace(/[:.]/g, '-')`. -/
def producerStamp (t : IsoTime) : List Char := jsReplaceColonDot (isoChars t)

/-- Dump extension per source kind (`sql` for relational, `rdb` for
cache). -/
def backupExt : SourceKind → List Char
  | .postgres => strL ".sql"
  | .redis => strL ".rdb"

/-- The artifact filename the producer builds:
`<sourceKind>-<cadence>-<stamp>.<ext>` plus the `.gz` that `gzip`
appends. -/
def backupFileNameGz (sk : SourceKind) (bt : Cadence) (t : IsoTime) :
    List Char :=
  sk.str ++ ['-'] ++ bt.str ++ ['-'] ++ producerStamp t ++ backupExt sk
    ++ strL ".gz"

example :
    backupFileNameGz SourceKind.postgres Cadence.hourly
        ⟨2024, 5, 1, 2, 30, 59, 123⟩
      = strL "postgres-hourly-2024-05-01T02-30-59-123Z.sql.gz" := by decide

/-- A producer/upload result object; the JavaScript object's optional
fields are `Option`s (`none` models an absent property). -/
structure BakResult where
  success : Bool
  fileName : Option (List Char)
  filePath : Option (List Char)
  fileSize : Option Nat
  rtype : Option RKind
  backupType : Option Cadence
  timestamp : Option (List Char)
  error : Option (List Char)
  s3Location : Option (List Char)
  s3Key : Option (List Char)
  uploaded : Option Bool
  uploadError : Option (List Char)
deriving DecidableEq, Repr

/-- Step outcomes for one `backupPostgreSQL` run: whether `pg_dump`
succeeded, whether the `.gz` file exists afterwards and its size (the
source reports size 0 when the compressed file is missing), and the
dump error message otherwise. -/
structure PgBackupEnv where
  dumpOk : Bool
  gzExists : Bool
  gzSize : Nat
  dumpErr : List Char
deriving Repr

/-- `backupPostgreSQL(backupType)`: run `pg_dump`; on success compress
(the compression result is never checked in the source) and report
success with the file identity and the size of the `.gz` if present,
else 0; on dump failure report failure with the error. -/
def backupPostgreSQL (env : PgBackupEnv) (bt : Cadence) (t : IsoTime) :
    BakResult :=
  if env.dumpOk then
    { success := true
      fileName := some (backupFileNameGz SourceKind.postgres bt t)
      filePath := some (strL "backups/" ++ backupFileNameGz SourceKind.postgres bt t)
      fileSize := some (if env.gzExists then env.gzSize else 0)
      rtype := some RKind.postgresql
      backupType := some bt
      timestamp := some (producerStamp t)
      error := none, s3Location := none, s3Key := none
      uploaded := none, uploadError := none }
  else
    { success := false
      fileName := none, filePath := none, fileSize := none, rtype := none
      backupType := none, timestamp := none
      error := some env.dumpErr
      s3Location := none, s3Key := none, uploaded := none, uploadError := none }

/-- Step outcomes for one `backupRedis` run: the `BGSAVE` trigger, the
`docker cp` of the dump file, and the compressed file's presence/size. -/
structure RdBackupEnv where
  saveOk : Bool
  copyOk : Bool
  gzExists : Bool
  gzSize : Nat
deriving Repr

/-- `backupRedis(backupType)`: trigger `BGSAVE`; on success wait and copy
the RDB file out; on success of both, compress (result unchecked) and
report success; any failure yields the source's single message
`Redis backup failed`. -/
def backupRedis (env : RdBackupEnv) (bt : Cadence) (t : IsoTime) :
    BakResult :=
  if env.saveOk && env.copyOk then
    { success := true
      fileName := some (backupFileNameGz SourceKind.redis bt t)
      filePath := some (strL "backups/" ++ backupFileNameGz SourceKind.redis bt t)
      fileSize := some (if env.gzExists then env.gzSize else 0)
      rtype := some RKind.redis
      backupType := some bt
      timestamp := some (producerStamp t)
      error := none, s3Location := none, s3Key := none
      uploaded := none, uploadError := none }
  else
    { success := false
      fileName := none, filePath := none, fileSize := none, rtype := none
      backupType := none, timestamp := none
      error := some (strL "Redis backup failed")
      s3Location := none, s3Key := none, uploaded := none, uploadError := none }

/-- The string of a result `type` field, as interpolated into the S3 key. -/
def rkindStr : Option RKind → List Char
  | some RKind.postgresql => strL "postgresql"
  | some RKind.redis => strL "redis"
  | some RKind.system => strL "system"
  | none => strL "undefined"

/-- The cadence string as interpolated into the S3 key. -/
def cadenceStrOpt : Option Cadence → List Char
  | some c => c.str
  | none => strL "undefined"

/-- The S3 object key `uploadToS3` builds:
`turbomark/<type>/<backupType>/<fileName>`. -/
def s3KeyOf (r : BakResult) : List Char :=
  strL "turbomark/" ++ rkindStr r.rtype ++ ['/'] ++ cadenceStrOpt r.backupType
    ++ ['/'] ++ r.fileName.getD (strL "undefined")

/-- `uploadToS3(backupResult)`: a failed backup is returned unchanged; a
successful upload adds `s3Location`/`s3Key`/`uploaded = true`; a failed
upload is caught and returns the result unchanged except for
`uploadError` and `uploaded = false` — it never throws. -/
def uploadToS3 (upOk : Bool) (upLoc upErr : List Char) (r : BakResult) :
    BakResult :=
  if !r.success then r
  else if upOk then
    { r with
        s3Location := some upLoc
        s3Key := some (s3KeyOf r)
        uploaded := some true }
  else
    { r with uploadError := some upErr, uploaded := some false }

/-- Claim C6: when the local write succeeded, a remote upload failure
leaves the per-source result's `success` equal to `true` and every other
field unchanged; the result only gains `uploaded = false` and the
`uploadError` message, and the call returns normally (it cannot abort the
run). -/
theorem claim6_upload_failure (upLoc upErr : List Char) (r : BakResult)
    (hs : r.success = true) :
    uploadToS3 false upLoc upErr r
      = { r with uploadError := some upErr, uploaded := some false } := by
  simp [uploadToS3, hs]

/-- Witness for claim C6 at a concrete successful relational backup
result: only `uploaded` and `uploadError` change. -/
theorem claim6_witness :
    uploadToS3 false (strL "loc") (strL "network down")
        (backupPostgreSQL ⟨true, true, 7, []⟩ Cadence.hourly
          ⟨2024, 5, 1, 2, 30, 59, 123⟩)
      = { backupPostgreSQL ⟨true, true, 7, []⟩ Cadence.hourly
            ⟨2024, 5, 1, 2, 30, 59, 123⟩ with
          uploadError := some (strL "network down"), uploaded := some false } :=
  claim6_upload_failure (strL "loc") (strL "network down") _ (by decide)

/-- The aggregate report `sendBackupNotification` formats: the per-source
results, the cadence, and the success counts that drive the subject
line. -/
structure BakNote where
  results : List BakResult
  backupType : Cadence
  successCount : Nat
  totalCount : Nat
deriving DecidableEq, Repr

/-- `sendBackupNotification(results, backupType)`: the notification value
it formats and mails. -/
def sendBackupNotification (results : List BakResult) (bt : Cadence) :
    BakNote :=
  ⟨results, bt, (results.filter (fun r => r.success)).length, results.length⟩

/-- Environment for one `runBackups` invocation: whether creating the
backup directory succeeds (`fs.mkdirSync` throws on failure), the two
producer environments, the two upload outcomes, and whether the
notification mail send succeeds (`transporter.sendMail` rejects on
failure).  All other steps catch their own errors in the source. -/
structure RunEnv where
  mkdirOk : Bool
  pg : PgBackupEnv
  rd : RdBackupEnv
  pgUpOk : Bool
  rdUpOk : Bool
  upLoc : List Char
  upErr : List Char
  mailOk : Bool
deriving Repr

/-- What one `runBackups` invocation returns:
`{success, results?, error?}`. -/
structure RunReturn where
  success : Bool
  results : List BakResult
  error : Option (List Char)
deriving DecidableEq, Repr

/-- Observable outcome of one `runBackups` invocation: the notifications
actually delivered, the backup directory after the retention prune, and
either the returned object or the message of an uncaught
(promise-rejecting) exception. -/
structure RunOut where
  notes : List BakNote
  dirAfter : List BFile
  ret : Except (List Char) RunReturn
deriving Repr

/-- `runBackups(backupType)` from `src/unnamed/part_000`: call
`ensureBackupDirectory()` — BEFORE the try block, so a `mkdirSync` throw
escapes the function and rejects the promise (`Except.error`, with the
prune never reached) — then, inside the try, back up and upload each
source (both steps swallow their own errors and return result objects),
prune the cadence just produced, send one aggregate notification, and
return `{success: true, results}`.  The only step inside the try that can
throw in this model is the mail send; its failure the enclosing catch
converts to a normal `{success: false, error}` return with nothing sent.
`t1`/`t2` are the instants the two producers capture and `dir` is the
directory contents the pruner sees. -/
def runBackups (bt : Cadence) (t1 t2 : IsoTime) (env : RunEnv)
    (dir : List BFile) : RunOut :=
  if !env.mkdirOk then
    ⟨[], dir, Except.error (strL "mkdir failed")⟩
  else
    let pgr := uploadToS3 env.pgUpOk env.upLoc env.upErr
      (backupPostgreSQL env.pg bt t1)
    let rdr := uploadToS3 env.rdUpOk env.upLoc env.upErr
      (backupRedis env.rd bt t2)
    let dirAfter := cleanOldBackups bt dir
    if env.mailOk then
      ⟨[sendBackupNotification [pgr, rdr] bt], dirAfter,
        Except.ok ⟨true, [pgr, rdr], none⟩⟩
    else
      ⟨[], dirAfter, Except.ok ⟨false, [], some (strL "mail send failed")⟩⟩

/-- Claim C5, counterexample: it is NOT the case that every `runBackups`
run ends with exactly one aggregate report delivered.  When the mail
send itself rejects, the catch returns `{success: false}` and the run
ends — in failure — with zero reports delivered. -/
theorem claim5_counterexample :
    ¬ (∀ (bt : Cadence) (t1 t2 : IsoTime) (env : RunEnv) (dir : List BFile),
        (runBackups bt t1 t2 env dir).notes.length = 1) := by
  intro h
  have := h Cadence.manual ⟨0, 0, 0, 0, 0, 0, 0⟩ ⟨0, 0, 0, 0, 0, 0, 0⟩
    ⟨true, ⟨true, true, 1, []⟩, ⟨true, true, true, 1⟩, true, true, [], [],
      false⟩ []
  simp [runBackups] at this

/-- Claim C5 as amended: a `runBackups` run delivers exactly one
aggregate report when the backup-directory setup and the mail send both
succeed — every producer, upload or prune failure is caught internally
and still reaches the notification.  When the mail send itself rejects,
the catch returns `{success: false, error}` with no report delivered;
when directory creation throws — which happens before the try block —
the exception escapes the function as an uncaught promise rejection and
again no report is delivered. -/
theorem claim5_amended (bt : Cadence) (t1 t2 : IsoTime) (env : RunEnv)
    (dir : List BFile) :
    (runBackups bt t1 t2 env dir).notes.length
        = (if env.mkdirOk && env.mailOk then 1 else 0)
    ∧ (runBackups bt t1 t2 env dir).ret
        = (if env.mkdirOk then
            if env.mailOk then
              Except.ok ⟨true,
                [uploadToS3 env.pgUpOk env.upLoc env.upErr
                    (backupPostgreSQL env.pg bt t1),
                  uploadToS3 env.rdUpOk env.upLoc env.upErr
                    (backupRedis env.rd bt t2)], none⟩
            else Except.ok ⟨false, [], some (strL "mail send failed")⟩
          else Except.error (strL "mkdir failed")) := by
  rcases env with ⟨mk, pg, rd, pup, rup, loc, err, mail⟩
  cases mk <;> cases mail <;> simp [runBackups]

/-- `dailyInterval` in `scheduleBackups`: 24 hours in milliseconds. -/
def dayMs : Nat := 24 * 60 * 60 * 1000

/-- The wall-clock target of the daily timer: 02:00 as milliseconds past
UTC midnight. -/
def twoAMms : Nat := 2 * 60 * 60 * 1000

/-- The delay `scheduleBackups` computes for the first daily fire:
`(2 * 60 * 60 * 1000) - (Date.now() % dailyInterval)`, where
`Date.now() % dailyInterval` is the milliseconds elapsed since UTC
midnight — a signed quantity that goes negative as soon as the process
starts after 02:00 UTC. -/
def msUntil2AM (now : Nat) : Int :=
  (twoAMms : Int) - ((now % dayMs : Nat) : Int)

/-- `setTimeout` clamps a negative delay to zero, so the first daily fire
happens at `now + max 0 (msUntil2AM now)`. -/
def firstDailyFire (now : Nat) : Nat :=
  now + (max 0 (msUntil2AM now)).toNat

/-- The n-th daily fire: `setInterval` every 24 h after the first. -/
def dailyFire (now n : Nat) : Nat := firstDailyFire now + n * dayMs

/-- Claim C8 evaluated at a failing input, supporting the code-bug
verdict: for a process started at 03:00:00.000 UTC (epoch milliseconds
10800000) the computed delay is negative (−3600000 ms), so `setTimeout`
fires immediately at start time, and every subsequent daily fire lands at
03:00 — never at the 02:00 wall-clock hour the code's own comment
(`every day at 2 AM`) and the spec promise. -/
theorem claim8_daily_misaligned :
    msUntil2AM 10800000 = -3600000
    ∧ firstDailyFire 10800000 = 10800000
    ∧ (∀ n : Nat, dailyFire 10800000 n % dayMs = 10800000)
    ∧ (10800000 : Nat) ≠ twoAMms := by
  refine ⟨by decide, by decide, ?_, by decide⟩
  intro n
  unfold dailyFire
  rw [(by decide : firstDailyFire 10800000 = 10800000),
    Nat.add_mul_mod_self_right]
  decide

theorem dVal_dChar {n : Nat} (h : n < 10) : dVal (dChar n) = n := by
  interval_cases n <;> decide

theorem colonDotToDash_dChar {n : Nat} (h : n < 10) :
    colonDotToDash (dChar n) = dChar n := by
  interval_cases n <;> decide

theorem dChar_isDigit {n : Nat} (h : n < 10) : (dChar n).isDigit = true := by
  interval_cases n <;> decide

theorem dVal_dChar_mod (a : Nat) : dVal (dChar (a % 10)) = a % 10 :=
  dVal_dChar (Nat.mod_lt _ (by omega))

theorem colonDotToDash_dChar_mod (a : Nat) :
    colonDotToDash (dChar (a % 10)) = dChar (a % 10) :=
  colonDotToDash_dChar (Nat.mod_lt _ (by omega))

theorem dChar_isDigit_mod (a : Nat) : (dChar (a % 10)).isDigit = true :=
  dChar_isDigit (Nat.mod_lt _ (by omega))


theorem postgres_str_chars :
    SourceKind.postgres.str = ['p', 'o', 's', 't', 'g', 'r', 'e', 's'] := by decide

theorem redis_str_chars :
    SourceKind.redis.str = ['r', 'e', 'd', 'i', 's'] := by decide

theorem sql_ext_chars : backupExt SourceKind.postgres = ['.', 's', 'q', 'l'] := by
  decide

theorem rdb_ext_chars : backupExt SourceKind.redis = ['.', 'r', 'd', 'b'] := by
  decide

theorem gz_chars : strL ".gz" = ['.', 'g', 'z'] := by decide

theorem hourly_str_chars :
    Cadence.hourly.str = ['h', 'o', 'u', 'r', 'l', 'y'] := by decide

theorem daily_str_chars :
    Cadence.daily.str = ['d', 'a', 'i', 'l', 'y'] := by decide

theorem weekly_str_chars :
    Cadence.weekly.str = ['w', 'e', 'e', 'k', 'l', 'y'] := by decide

theorem monthly_str_chars :
    Cadence.monthly.str = ['m', 'o', 'n', 't', 'h', 'l', 'y'] := by decide

theorem manual_str_chars :
    Cadence.manual.str = ['m', 'a', 'n', 'u', 'a', 'l'] := by decide

theorem startup_str_chars :
    Cadence.startup.str = ['s', 't', 'a', 'r', 't', 'u', 'p'] := by decide

theorem quick_str_chars :
    Cadence.quick.str = ['q', 'u', 'i', 'c', 'k'] := by decide

/-- For a timestamp within the digit bounds, the producer's mangled stamp
is the fixed 24-character layout `YYYY-MM-DDTHH-mm-ss-sssZ`: the
character-wise replacement turns exactly the two colons and the dot into
dashes and leaves every digit, dash, `T` and `Z` alone. -/
theorem producerStamp_chars (t : IsoTime) (hv : t.valid) :
    producerStamp t =
      dChar (t.y / 1000) :: dChar (t.y / 100 % 10) :: dChar (t.y / 10 % 10)
        :: dChar (t.y % 10) :: '-' :: dChar (t.mo / 10) :: dChar (t.mo % 10)
        :: '-' :: dChar (t.d / 10) :: dChar (t.d % 10) :: 'T'
        :: dChar (t.h / 10) :: dChar (t.h % 10) :: '-' :: dChar (t.mi / 10)
        :: dChar (t.mi % 10) :: '-' :: dChar (t.s / 10) :: dChar (t.s % 10)
        :: '-' :: dChar (t.ms / 100) :: dChar (t.ms / 10 % 10)
        :: dChar (t.ms % 10) :: ['Z'] := by
  obtain ⟨hy, hmo, hd, hh, hmi, hs, hms⟩ := hv
  unfold producerStamp jsReplaceColonDot isoChars pad4 pad3 pad2
  simp only [List.map_append, List.map_cons, List.map_nil, List.cons_append,
    List.nil_append, List.append_nil,
    colonDotToDash_dChar_mod,
    colonDotToDash_dChar (show t.y / 1000 < 10 by omega),
    colonDotToDash_dChar (show t.mo / 10 < 10 by omega),
    colonDotToDash_dChar (show t.d / 10 < 10 by omega),
    colonDotToDash_dChar (show t.h / 10 < 10 by omega),
    colonDotToDash_dChar (show t.mi / 10 < 10 by omega),
    colonDotToDash_dChar (show t.s / 10 < 10 by omega),
    colonDotToDash_dChar (show t.ms / 100 < 10 by omega),
    (by decide : colonDotToDash '-' = '-'),
    (by decide : colonDotToDash 'T' = 'T'),
    (by decide : colonDotToDash ':' = '-'),
    (by decide : colonDotToDash '.' = '-'),
    (by decide : colonDotToDash 'Z' = 'Z')]

/-- Strip an expected literal prefix from a character list, yielding the
remainder on a match and nothing otherwise. -/
def stripLit : List Char → List Char → Option (List Char)
  | [], s => some s
  | _ :: _, [] => none
  | c :: cs, x :: xs => if x = c then stripLit cs xs else none

/-- Read one decimal digit. -/
def readDigit : List Char → Option (Nat × List Char)
  | x :: xs => if x.isDigit then some (dVal x, xs) else none
  | [] => none

/-- Expect one literal character. -/
def expectChar (c : Char) : List Char → Option (List Char)
  | x :: xs => if x = c then some xs else none
  | [] => none

/-- Modelled from the spec: the repository has no inverse parser for its
artifact filename convention (the restore tool recovers only the source
kind, by substring containment), so the parser is written from the spec's
convention
`<sourceKind>-<cadence>-<ISO8601 with colon and dot replaced by dash>.<ext>.gz`.
This stage recognizes the source-kind segment. -/
def parseKind (s : List Char) : Option (SourceKind × List Char) :=
  match stripLit (strL "postgres-") s with
  | some rest => some (SourceKind.postgres, rest)
  | none =>
    match stripLit (strL "redis-") s with
    | some rest => some (SourceKind.redis, rest)
    | none => none

/-- Modelled from the spec: the cadence segment of the filename parser. -/
def parseCadence (s : List Char) : Option (Cadence × List Char) :=
  match stripLit (strL "hourly-") s with
  | some rest => some (Cadence.hourly, rest)
  | none =>
  match stripLit (strL "daily-") s with
  | some rest => some (Cadence.daily, rest)
  | none =>
  match stripLit (strL "weekly-") s with
  | some rest => some (Cadence.weekly, rest)
  | none =>
  match stripLit (strL "monthly-") s with
  | some rest => some (Cadence.monthly, rest)
  | none =>
  match stripLit (strL "manual-") s with
  | some rest => some (Cadence.manual, rest)
  | none =>
  match stripLit (strL "startup-") s with
  | some rest => some (Cadence.startup, rest)
  | none =>
  match stripLit (strL "quick-") s with
  | some rest => some (Cadence.quick, rest)
  | none => none

/-- Read two decimal digits as one number. -/
def read2 (s : List Char) : Option (Nat × List Char) :=
  match readDigit s with
  | none => none
  | some (a, s1) =>
    match readDigit s1 with
    | none => none
    | some (b, s2) => some (10 * a + b, s2)

/-- Read three decimal digits as one number. -/
def read3 (s : List Char) : Option (Nat × List Char) :=
  match readDigit s with
  | none => none
  | some (a, s1) =>
    match read2 s1 with
    | none => none
    | some (b, s2) => some (100 * a + b, s2)

/-- Read four decimal digits as one number. -/
def read4 (s : List Char) : Option (Nat × List Char) :=
  match read2 s with
  | none => none
  | some (a, s1) =>
    match read2 s1 with
    | none => none
    | some (b, s2) => some (100 * a + b, s2)

/-- Expect a separator, then read two digits. -/
def readSep2 (c : Char) (s : List Char) : Option (Nat × List Char) :=
  match expectChar c s with
  | none => none
  | some s1 => read2 s1

/-- Expect a separator, then read three digits. -/
def readSep3 (c : Char) (s : List Char) : Option (Nat × List Char) :=
  match expectChar c s with
  | none => none
  | some s1 => read3 s1

/-- Modelled from the spec: the mangled timestamp segment of the filename
parser, fixed layout `YYYY-MM-DDTHH-mm-ss-sssZ` — each position must be a
digit or the expected separator. -/
def parseStamp (s0 : List Char) : Option (IsoTime × List Char) :=
  match read4 s0 with
  | none => none
  | some (y, sa) =>
  match readSep2 '-' sa with
  | none => none
  | some (mo, sb) =>
  match readSep2 '-' sb with
  | none => none
  | some (d, sc) =>
  match readSep2 'T' sc with
  | none => none
  | some (h, sd) =>
  match readSep2 '-' sd with
  | none => none
  | some (mi, se) =>
  match readSep2 '-' se with
  | none => none
  | some (s, sf) =>
  match readSep3 '-' sf with
  | none => none
  | some (ms, sg) =>
  match expectChar 'Z' sg with
  | none => none
  | some sh => some (⟨y, mo, d, h, mi, s, ms⟩, sh)

/-- Modelled from the spec: the whole filename parser — source kind,
cadence, mangled timestamp, then exactly the extension belonging to the
source kind plus `.gz`. -/
def parseBackupFileName (s : List Char) :
    Option (SourceKind × Cadence × IsoTime) :=
  match parseKind s with
  | none => none
  | some (sk, s1) =>
    match parseCadence s1 with
    | none => none
    | some (bt, s2) =>
      match parseStamp s2 with
      | none => none
      | some (t, rest) =>
        if rest == backupExt sk ++ strL ".gz" then some (sk, bt, t) else none

example :
    parseBackupFileName (strL "postgres-hourly-2024-05-01T02-30-59-123Z.sql.gz")
      = some (SourceKind.postgres, Cadence.hourly,
          ⟨2024, 5, 1, 2, 30, 59, 123⟩) := rfl

example :
    parseBackupFileName (strL "redis-manual-2023-12-31T23-59-01-007Z.rdb.gz")
      = some (SourceKind.redis, Cadence.manual,
          ⟨2023, 12, 31, 23, 59, 1, 7⟩) := rfl

example : parseBackupFileName (strL "redis-manual-garbage") = none := rfl

example :
    parseBackupFileName (strL "postgres-hourly-2024-05-01T02-30-59-123Z.rdb.gz")
      = none := rfl

theorem stripLit_append (pre rest : List Char) :
    stripLit pre (pre ++ rest) = some rest := by
  induction pre with
  | nil => rfl
  | cons c cs ih => simp [stripLit, ih]

theorem readDigit_dChar {n : Nat} (h : n < 10) (rest : List Char) :
    readDigit (dChar n :: rest) = some (n, rest) := by
  simp [readDigit, dChar_isDigit h, dVal_dChar h]

theorem expectChar_self (c : Char) (rest : List Char) :
    expectChar c (c :: rest) = some rest := by
  simp [expectChar]

theorem read2_digits {a b : Nat} (ha : a < 10) (hb : b < 10)
    (rest : List Char) :
    read2 (dChar a :: dChar b :: rest) = some (10 * a + b, rest) := by
  simp only [read2, readDigit_dChar ha, readDigit_dChar hb]

theorem read3_digits {a b c : Nat} (ha : a < 10) (hb : b < 10) (hc : c < 10)
    (rest : List Char) :
    read3 (dChar a :: dChar b :: dChar c :: rest)
      = some (100 * a + (10 * b + c), rest) := by
  simp only [read3, readDigit_dChar ha, read2_digits hb hc]

theorem read4_digits {a b c d : Nat} (ha : a < 10) (hb : b < 10)
    (hc : c < 10) (hd : d < 10) (rest : List Char) :
    read4 (dChar a :: dChar b :: dChar c :: dChar d :: rest)
      = some (100 * (10 * a + b) + (10 * c + d), rest) := by
  simp only [read4, read2_digits ha hb, read2_digits hc hd]

theorem readSep2_digits (c : Char) {a b : Nat} (ha : a < 10) (hb : b < 10)
    (rest : List Char) :
    readSep2 c (c :: dChar a :: dChar b :: rest) = some (10 * a + b, rest) := by
  simp only [readSep2, expectChar_self, read2_digits ha hb]

theorem readSep3_digits (c : Char) {a b d : Nat} (ha : a < 10) (hb : b < 10)
    (hd : d < 10) (rest : List Char) :
    readSep3 c (c :: dChar a :: dChar b :: dChar d :: rest)
      = some (100 * a + (10 * b + d), rest) := by
  simp only [readSep3, expectChar_self, read3_digits ha hb hd]

/-- Parsing the producer's mangled stamp at the head of any string
recovers the original timestamp and leaves the remainder untouched. -/
theorem parseStamp_producer (t : IsoTime) (hv : t.valid) (rest : List Char) :
    parseStamp (producerStamp t ++ rest) = some (t, rest) := by
  obtain ⟨y, mo, d, h, mi, s, ms⟩ := t
  obtain ⟨hy, hmo, hd, hh, hmi, hs, hms⟩ := hv
  dsimp only at hy hmo hd hh hmi hs hms
  rw [producerStamp_chars ⟨y, mo, d, h, mi, s, ms⟩
    ⟨hy, hmo, hd, hh, hmi, hs, hms⟩]
  simp only [List.cons_append, List.nil_append]
  simp only [parseStamp,
    read4_digits (show y / 1000 < 10 by omega) (show y / 100 % 10 < 10 by omega)
      (show y / 10 % 10 < 10 by omega) (show y % 10 < 10 by omega),
    readSep2_digits '-' (show mo / 10 < 10 by omega) (show mo % 10 < 10 by omega),
    readSep2_digits '-' (show d / 10 < 10 by omega) (show d % 10 < 10 by omega),
    readSep2_digits 'T' (show h / 10 < 10 by omega) (show h % 10 < 10 by omega),
    readSep2_digits '-' (show mi / 10 < 10 by omega) (show mi % 10 < 10 by omega),
    readSep2_digits '-' (show s / 10 < 10 by omega) (show s % 10 < 10 by omega),
    readSep3_digits '-' (show ms / 100 < 10 by omega)
      (show ms / 10 % 10 < 10 by omega) (show ms % 10 < 10 by omega),
    expectChar_self]
  simp only [Option.some.injEq, Prod.mk.injEq, IsoTime.mk.injEq, and_true]
  omega

/-- Claim C7: the artifact filename built by the producer is round-trip
parseable — for every source kind, cadence and in-bounds timestamp,
parsing `<sourceKind>-<cadence>-<mangled ISO stamp>.<ext>.gz` recovers
exactly the original triple. -/
theorem claim7_roundtrip (sk : SourceKind) (bt : Cadence) (t : IsoTime)
    (hv : t.valid) :
    parseBackupFileName (backupFileNameGz sk bt t) = some (sk, bt, t) := by
  have hps := parseStamp_producer t hv
  unfold backupFileNameGz parseBackupFileName parseKind parseCadence
  cases sk <;> cases bt <;>
    simp [postgres_str_chars, redis_str_chars, hourly_str_chars,
      daily_str_chars, weekly_str_chars, monthly_str_chars, manual_str_chars,
      startup_str_chars, quick_str_chars, sql_ext_chars, rdb_ext_chars,
      gz_chars, stripLit, List.cons_append, List.nil_append,
      List.append_assoc, hps,
      (by decide : strL "postgres-" = ['p', 'o', 's', 't', 'g', 'r', 'e', 's', '-']),
      (by decide : strL "redis-" = ['r', 'e', 'd', 'i', 's', '-']),
      (by decide : strL "hourly-" = ['h', 'o', 'u', 'r', 'l', 'y', '-']),
      (by decide : strL "daily-" = ['d', 'a', 'i', 'l', 'y', '-']),
      (by decide : strL "weekly-" = ['w', 'e', 'e', 'k', 'l', 'y', '-']),
      (by decide : strL "monthly-" = ['m', 'o', 'n', 't', 'h', 'l', 'y', '-']),
      (by decide : strL "manual-" = ['m', 'a', 'n', 'u', 'a', 'l', '-']),
      (by decide : strL "startup-" = ['s', 't', 'a', 'r', 't', 'u', 'p', '-']),
      (by decide : strL "quick-" = ['q', 'u', 'i', 'c', 'k', '-'])]

/-- Witness for claim C7 at a concrete triple. -/
theorem claim7_witness :
    parseBackupFileName (backupFileNameGz SourceKind.postgres Cadence.hourly
        ⟨2024, 5, 1, 2, 30, 59, 123⟩)
      = some (SourceKind.postgres, Cadence.hourly,
          ⟨2024, 5, 1, 2, 30, 59, 123⟩) :=
  claim7_roundtrip SourceKind.postgres Cadence.hourly
    ⟨2024, 5, 1, 2, 30, 59, 123⟩ (by decide)
